import Mathlib

/-!
Verification development for the postgres-best-practices build pipeline
(validate.ts, extract-tests.ts, build.ts, config.ts).

The TypeScript sources are shallowly embedded: JavaScript strings are Lean
`String`s manipulated through their character lists, JS truthiness on
optional string fields is made explicit (`strTruthy`), and the stable
`Array.prototype.sort` with a comparator is modelled by a stable insertion
sort.  `localeCompare` is modelled as code-point lexicographic comparison
(`lexLe`); on the ASCII titles appearing in the concrete examples below the
two orders agree.  File-system reads are pipeline inputs: a rules directory
is a list of file names paired with the (externally produced) parse result
of that file's contents, the metadata file is an optional `Metadata`, and
the `_sections.md` file is an optional string handed to the regex matcher.
-/

namespace PBP

/-- Models `String.prototype.toLowerCase` (character-wise lowering). -/
def jsToLower (s : String) : String := ⟨s.data.map Char.toLower⟩

/-- Characters dropped from both ends by `String.prototype.trim`. -/
def trimChars (l : List Char) : List Char :=
  ((l.dropWhile Char.isWhitespace).reverse.dropWhile Char.isWhitespace).reverse

/-- Models `String.prototype.trim`. -/
def jsTrim (s : String) : String := ⟨trimChars s.data⟩

/-- Auxiliary check that the first list starts the second one. -/
def leadsWith : List Char → List Char → Bool
  | [], _ => true
  | _ :: _, [] => false
  | a :: as, b :: bs => a == b && leadsWith as bs

/-- Auxiliary substring search over character lists. -/
def charsContain (sub : List Char) : List Char → Bool
  | [] => sub.isEmpty
  | c :: cs => leadsWith sub (c :: cs) || charsContain sub cs

/-- Models `String.prototype.includes`. -/
def jsIncludes (s sub : String) : Bool := charsContain sub.data s.data

/-- Models `String.prototype.endsWith`. -/
def jsEndsWith (s suf : String) : Bool := leadsWith suf.data.reverse s.data.reverse

/-- Models `String.prototype.startsWith`. -/
def jsStartsWith (s p : String) : Bool := leadsWith p.data s.data

/-- Truthiness of an optional JS string: `undefined` and `""` are falsy. -/
def strTruthy : Option String → Bool
  | none => false
  | some s => !(s == "")

/-- Models the JS idiom `x || d` on an optional string `x`. -/
def strOr (o : Option String) (d : String) : String :=
  match o with
  | none => d
  | some s => if s == "" then d else s

/-- Code-point lexicographic comparison on character lists; model of
`localeCompare(a, b) <= 0` used as the sort comparator. -/
def lexLe : List Char → List Char → Bool
  | [], _ => true
  | _ :: _, [] => false
  | a :: as, b :: bs => if a = b then lexLe as bs else decide (a < b)

/-- One labelled code example of a rule (types.ts `Example`). -/
structure Example where
  label : String
  description : Option String
  code : String
  language : Option String
  additionalText : Option String
deriving DecidableEq

/-- One parsed rule record (types.ts `Rule`); `sectionNum` embeds the
`section` field, which is a Lean keyword. -/
structure Rule where
  title : String
  impact : String
  impactDescription : Option String
  explanation : String
  sectionNum : Nat
  examples : List Example
  supabaseNotes : Option String
  references : List String
deriving DecidableEq

/-- Result of `parseRuleFile` (parser.ts is outside the embedded sources;
its output is an input of the embedded pipeline). -/
structure ParseResult where
  success : Bool
  rule : Option Rule
  errors : List String
  warnings : List String
deriving DecidableEq

/-- Result record of `validateRuleFile`. -/
structure ValidationResult where
  valid : Bool
  errors : List String
  warnings : List String
deriving DecidableEq

/-- One entry of the rules directory: a file name together with the parse
result of the file's contents. -/
structure RuleFile where
  name : String
  parsed : ParseResult
deriving DecidableEq

/-- Classification tag of an extracted test case. -/
inductive ExampleType where
  | bad
  | good
deriving DecidableEq

/-- One extracted test case (types.ts `TestCase`). -/
structure TestCase where
  ruleId : String
  ruleTitle : String
  type : ExampleType
  code : String
  language : String
  description : String
deriving DecidableEq

/-- metadata.json contents (types.ts `Metadata`). -/
structure Metadata where
  version : String
  organization : String
  date : String
  abstract : String
  references : List String
deriving DecidableEq

/-- One section definition (types.ts `Section`); `key` embeds the source's
filename-marker field whose original name collides with a Lean keyword. -/
structure Section where
  number : Nat
  title : String
  key : String
  impact : String
  description : String
deriving DecidableEq

/-- config.ts `IMPACT_LEVELS`. -/
def IMPACT_LEVELS : List String :=
  ["CRITICAL", "HIGH", "MEDIUM-HIGH", "MEDIUM", "LOW-MEDIUM", "LOW"]

/-- validate.ts / extract-tests.ts `isBadExample` (the two copies are
character-identical). -/
def isBadExample (label : String) : Bool :=
  let lower := jsToLower label
  jsIncludes lower "incorrect" || jsIncludes lower "wrong" || jsIncludes lower "bad"

/-- validate.ts / extract-tests.ts `isGoodExample` (the two copies are
character-identical). -/
def isGoodExample (label : String) : Bool :=
  let lower := jsToLower label
  jsIncludes lower "correct" || jsIncludes lower "good" || jsIncludes lower "usage" ||
    jsIncludes lower "implementation" || jsIncludes lower "example" ||
    jsIncludes lower "recommended"

/-- extract-tests.ts lines 69-75: the per-example classification, bad
checked before good. -/
def classifyLabel (label : String) : Option ExampleType :=
  if isBadExample label then some ExampleType.bad
  else if isGoodExample label then some ExampleType.good
  else none

/-- Error message of validate.ts line 51. -/
def msgNoTitle : String := "Missing or empty title"

/-- Error message of validate.ts line 55. -/
def msgNoExplanation : String := "Missing or empty explanation"

/-- Warning message of validate.ts line 58. -/
def msgShortExplanation : String := "Explanation is shorter than 50 characters"

/-- Error message of validate.ts line 63. -/
def msgMissingExamples : String :=
  "Missing examples (need at least one bad and one good example)"

/-- Error message of validate.ts line 69. -/
def msgMissingBoth : String := "Missing bad/incorrect and good/correct examples"

/-- Warning message of validate.ts line 71. -/
def msgMissingBadWarn : String := "Missing bad/incorrect example (recommended for clarity)"

/-- Error message of validate.ts line 73. -/
def msgMissingGood : String := "Missing good/correct example"

/-- Error message of validate.ts line 79. -/
def msgNoCode : String := "Examples have no code"

/-- Warning message of validate.ts line 85. -/
def msgLangWarn (label : String) : String :=
  "Example \"" ++ label ++ "\" missing language specification"

/-- Error message of validate.ts line 92. -/
def impactErrorMsg (impact : String) : String :=
  "Invalid impact level: " ++ impact ++ ". Must be one of: " ++
    String.intercalate ", " IMPACT_LEVELS

/-- Warning message of validate.ts line 97. -/
def msgNoImpactDescription : String :=
  "Missing impactDescription (recommended for quantifying benefit)"

/-- Whether some example of the rule classifies as bad (validate.ts line 65). -/
def hasBad (r : Rule) : Bool := r.examples.any fun e => isBadExample e.label

/-- Whether some example of the rule classifies as good (validate.ts line 66). -/
def hasGood (r : Rule) : Bool := r.examples.any fun e => isGoodExample e.label

/-- Errors pushed by validate.ts lines 50-52. -/
def titleErrors (r : Rule) : List String :=
  if jsTrim r.title == "" then [msgNoTitle] else []

/-- Errors pushed by validate.ts lines 55-56. -/
def explanationErrors (r : Rule) : List String :=
  if jsTrim r.explanation == "" then [msgNoExplanation] else []

/-- Warnings pushed by validate.ts lines 57-59. -/
def explanationWarnings (r : Rule) : List String :=
  if jsTrim r.explanation == "" then []
  else if r.explanation.length < 50 then [msgShortExplanation] else []

/-- Errors pushed by the bad/good classification checks, validate.ts lines 68-74. -/
def exampleClassErrors (r : Rule) : List String :=
  if !hasBad r && !hasGood r then [msgMissingBoth]
  else if !hasBad r then []
  else if !hasGood r then [msgMissingGood]
  else []

/-- Warnings pushed by the bad/good classification checks, validate.ts lines 68-74. -/
def exampleClassWarnings (r : Rule) : List String :=
  if !hasBad r && !hasGood r then []
  else if !hasBad r then [msgMissingBadWarn]
  else []

/-- Error pushed by the has-code check, validate.ts lines 77-80. -/
def hasCodeErrors (r : Rule) : List String :=
  if r.examples.any (fun e => !(jsTrim e.code == "")) then [] else [msgNoCode]

/-- Warnings pushed by the language check, validate.ts lines 83-87. -/
def langWarnings (r : Rule) : List String :=
  r.examples.filterMap fun e =>
    if !(e.code == "") && !(strTruthy e.language) then some (msgLangWarn e.label) else none

/-- Errors pushed by the example block, validate.ts lines 62-88. -/
def exampleErrors (r : Rule) : List String :=
  if r.examples.isEmpty then [msgMissingExamples]
  else exampleClassErrors r ++ hasCodeErrors r

/-- Warnings pushed by the example block, validate.ts lines 62-88. -/
def exampleWarnings (r : Rule) : List String :=
  if r.examples.isEmpty then [] else exampleClassWarnings r ++ langWarnings r

/-- Errors pushed by validate.ts lines 91-93. -/
def impactErrors (r : Rule) : List String :=
  if IMPACT_LEVELS.contains r.impact then [] else [impactErrorMsg r.impact]

/-- Warning pushed by validate.ts lines 96-98. -/
def impactDescWarnings (r : Rule) : List String :=
  if strTruthy r.impactDescription then [] else [msgNoImpactDescription]

/-- All rule-level errors of `validateRuleFile`, in push order. -/
def ruleErrors (r : Rule) : List String :=
  titleErrors r ++ explanationErrors r ++ exampleErrors r ++ impactErrors r

/-- All rule-level warnings of `validateRuleFile`, in push order. -/
def ruleWarnings (r : Rule) : List String :=
  explanationWarnings r ++ exampleWarnings r ++ impactDescWarnings r

/-- validate.ts `validateRuleFile`: parser diagnostics are prepended, the
rule-level checks run only on a successful parse, and `valid` is the
emptiness of the collected error list. -/
def validateParseResult (pr : ParseResult) : ValidationResult :=
  match pr.success, pr.rule with
  | true, some r =>
    { valid := (pr.errors ++ ruleErrors r).isEmpty
      errors := pr.errors ++ ruleErrors r
      warnings := pr.warnings ++ ruleWarnings r }
  | _, _ => { valid := false, errors := pr.errors, warnings := pr.warnings }

/-- The shared directory filter of validate.ts line 122, extract-tests.ts
line 39 and build.ts line 93: keep `.md` files not starting with `_`. -/
def nameOk (n : String) : Bool := jsEndsWith n ".md" && !(jsStartsWith n "_")

/-- Directory listing as seen by all three entry points. -/
def listRuleFiles (dir : List RuleFile) : List RuleFile :=
  dir.filter fun f => nameOk f.name

/-- validate.ts `validateAllRules`: per-file validation results keyed by
file name, over the filtered directory listing. -/
def validateAllFiles (dir : List RuleFile) : List (String × ValidationResult) :=
  (listRuleFiles dir).map fun f => (f.name, validateParseResult f.parsed)

/-- extract-tests.ts lines 64-87: the test case produced from one example
of a rule, if any: examples with blank code are skipped, then the label is
classified, and unclassified examples are skipped. -/
def extractExampleCase (ruleId : String) (ruleTitle : String) (e : Example) : Option TestCase :=
  if jsTrim e.code == "" then none
  else
    match classifyLabel e.label with
    | none => none
    | some t =>
      some { ruleId := ruleId
             ruleTitle := ruleTitle
             type := t
             code := e.code
             language := strOr e.language "sql"
             description := strOr e.description (e.label ++ " example for " ++ ruleTitle) }

/-- Loop state of `extractTestCases`: the per-section counters
(`ruleCountBySection`) and the accumulated test cases. -/
structure ExtractState where
  counts : Nat → Nat
  cases : List TestCase

/-- One iteration of the extract-tests.ts main loop (lines 45-88): invalid
or unparsed files are skipped, otherwise the per-section counter is bumped,
the ruleId is formed from it, and the rule's examples are appended. -/
def extractStep (st : ExtractState) (f : RuleFile) : ExtractState :=
  if !(validateParseResult f.parsed).valid then st
  else
    match f.parsed.success, f.parsed.rule with
    | true, some r =>
      let c := st.counts r.sectionNum + 1
      let ruleId := toString r.sectionNum ++ "." ++ toString c
      { counts := fun n => if n == r.sectionNum then c else st.counts n
        cases := st.cases ++ r.examples.filterMap (extractExampleCase ruleId r.title) }
    | _, _ => st

/-- extract-tests.ts `extractTestCases`: folds the main loop over the
filtered directory listing; note the ruleId counter runs in directory
order, without any per-section sort. -/
def extractTestCases (dir : List RuleFile) : List TestCase :=
  ((listRuleFiles dir).foldl extractStep { counts := fun _ => 0, cases := [] }).cases

/-- build.ts lines 103-115: the rule collected from one directory entry, if
any (files with an invalid validation result are skipped entirely). -/
def includedRuleOfFile (f : RuleFile) : Option Rule :=
  if (validateParseResult f.parsed).valid then
    match f.parsed.success, f.parsed.rule with
    | true, some r => some r
    | _, _ => none
  else none

/-- build.ts: the `rules` array after the parse/validate loop. -/
def includedRules (dir : List RuleFile) : List Rule :=
  (listRuleFiles dir).filterMap includedRuleOfFile

/-- build.ts lines 118-124: the rules grouped under one section number, in
insertion (directory) order. -/
def rulesInSection (rules : List Rule) (n : Nat) : List Rule :=
  rules.filter fun r => r.sectionNum == n

/-- The sort comparator of build.ts line 128,
`(a, b) => a.title.localeCompare(b.title)`, modelled as code-point order. -/
def titleLe (a b : Rule) : Bool := lexLe a.title.data b.title.data

/-- Stable insertion of an element in front of the first entry it compares
less-or-equal to. -/
def insertLe (le : Rule → Rule → Bool) (a : Rule) : List Rule → List Rule
  | [] => [a]
  | b :: bs => if le a b then a :: b :: bs else b :: insertLe le a bs

/-- Stable insertion sort; model of the stable `Array.prototype.sort` used
at build.ts line 128. -/
def sortRules (le : Rule → Rule → Bool) : List Rule → List Rule
  | [] => []
  | a :: as => insertLe le a (sortRules le as)

/-- The id strings `"<n>.<k>"`, `"<n>.<k+1>"`, ... paired with a run of
rules (build.ts lines 129-131). -/
def numberFrom (n k : Nat) : List Rule → List (String × Rule)
  | [] => []
  | r :: rs => (toString n ++ "." ++ toString k, r) :: numberFrom n (k + 1) rs

/-- build.ts lines 126-132: one section's rules sorted by title with ids
`"<sectionNumber>.<position+1>"` assigned in sorted order. -/
def assignIds (rules : List Rule) (n : Nat) : List (String × Rule) :=
  numberFrom n 1 (sortRules titleLe (rulesInSection rules n))

/-- build.ts `getDefaultSections`. -/
def getDefaultSections : List Section :=
  [ { number := 1, title := "Query Performance", key := "query", impact := "CRITICAL",
      description := "Slow queries, missing indexes, inefficient plans" },
    { number := 2, title := "Connection Management", key := "conn", impact := "CRITICAL",
      description := "Pooling, limits, serverless strategies" },
    { number := 3, title := "Schema Design", key := "schema", impact := "HIGH",
      description := "Table design, indexes, partitioning, data types" },
    { number := 4, title := "Concurrency & Locking", key := "lock", impact := "MEDIUM-HIGH",
      description := "Transactions, isolation, deadlocks" },
    { number := 5, title := "Security & RLS", key := "security", impact := "MEDIUM-HIGH",
      description := "Row-Level Security, privileges, auth patterns" },
    { number := 6, title := "Data Access Patterns", key := "data", impact := "MEDIUM",
      description := "N+1 queries, batch operations, pagination" },
    { number := 7, title := "Monitoring & Diagnostics", key := "monitor", impact := "LOW-MEDIUM",
      description := "pg_stat_statements, EXPLAIN, metrics" },
    { number := 8, title := "Advanced Features", key := "advanced", impact := "LOW",
      description := "Full-text search, JSONB, extensions" } ]

/-- build.ts `parseSections`: the `_sections.md` contents are an optional
input and the regex `matchAll` pass over them is the `matcher` argument;
an absent file or a matchless content falls back to the default table. -/
def parseSections (matcher : String → List Section) (src : Option String) : List Section :=
  match src with
  | none => getDefaultSections
  | some content =>
    let sections := matcher content
    if sections.length > 0 then sections else getDefaultSections

/-- build.ts `loadMetadata`: the metadata file is an optional (already
decoded) input; when absent, the fallback stamps the formatted current
date, passed here as `now`. -/
def loadMetadata (now : String) (src : Option Metadata) : Metadata :=
  match src with
  | none =>
    { version := "0.1.0"
      organization := "Supabase"
      date := now
      abstract := "Postgres performance optimization guide for developers."
      references := [] }
  | some m => m

/-- Characters kept by the first replace of build.ts `toAnchor`. -/
def anchorKeep (l : List Char) : List Char :=
  l.filter fun c => ('a' ≤ c && c ≤ 'z') || ('0' ≤ c && c ≤ '9') || c.isWhitespace || c == '-'

/-- Second replace of build.ts `toAnchor`: each maximal whitespace run
becomes one hyphen; the flag records whether a run is in progress. -/
def collapseAux : Bool → List Char → List Char
  | _, [] => []
  | inRun, c :: cs =>
    if c.isWhitespace then
      if inRun then collapseAux true cs else '-' :: collapseAux true cs
    else c :: collapseAux false cs

/-- build.ts `toAnchor`. -/
def toAnchor (text : String) : String :=
  ⟨collapseAux false (anchorKeep (jsToLower text).data)⟩

/-- build.ts lines 189-203: the output lines pushed for one example. -/
def renderExample (e : Example) : List String :=
  (if strTruthy e.description then
     ["**" ++ e.label ++ " (" ++ e.description.getD "" ++ "):**\n"]
   else ["**" ++ e.label ++ ":**\n"])
  ++ ["```" ++ strOr e.language "sql", e.code, "```\n"]
  ++ (if strTruthy e.additionalText then [e.additionalText.getD "" ++ "\n"] else [])

/-- build.ts lines 178-222: the output lines pushed for one rule with its
assigned id. -/
def renderRule (p : String × Rule) : List String :=
  ["### " ++ p.1 ++ " " ++ p.2.title ++ "\n"]
  ++ (if strTruthy p.2.impactDescription then
        ["**Impact: " ++ p.2.impact ++ " (" ++ p.2.impactDescription.getD "" ++ ")**\n"]
      else ["**Impact: " ++ p.2.impact ++ "**\n"])
  ++ [p.2.explanation ++ "\n"]
  ++ (p.2.examples.map renderExample).flatten
  ++ (if strTruthy p.2.supabaseNotes then
        ["**Supabase Note:** " ++ p.2.supabaseNotes.getD "" ++ "\n"]
      else [])
  ++ (if p.2.references.length > 0 then
        if p.2.references.length == 1 then ["Reference: " ++ p.2.references.headD "" ++ "\n"]
        else ["References:"] ++ p.2.references.map (fun ref => "- " ++ ref) ++ [""]
      else [])
  ++ ["---\n"]

/-- build.ts lines 153-162: the table-of-contents lines for one section. -/
def tocSection (rules : List Rule) (s : Section) : List String :=
  [toString s.number ++ ". [" ++ s.title ++ "](#" ++ toAnchor s.title ++ ") - **" ++
     s.impact ++ "**"]
  ++ (assignIds rules s.number).map (fun p =>
       "   - " ++ p.1 ++ " [" ++ p.2.title ++ "](#" ++ toAnchor (p.1 ++ "-" ++ p.2.title) ++ ")")
  ++ [""]

/-- build.ts lines 167-223: the body lines for one section. -/
def bodySection (rules : List Rule) (s : Section) : List String :=
  ["## " ++ toString s.number ++ ". " ++ s.title ++ "\n",
   "**Impact: " ++ s.impact ++ "**\n",
   s.description ++ "\n"]
  ++ (if (assignIds rules s.number).isEmpty then
        ["*No rules defined yet. See rules/_template.md for creating new rules.*\n"]
      else [])
  ++ ((assignIds rules s.number).map renderRule).flatten

/-- build.ts lines 134-235: the full rendered AGENTS.md text as the
join of all pushed output lines. -/
def renderDoc (m : Metadata) (sections : List Section) (rules : List Rule) : String :=
  String.intercalate "\n" (
    ["# Postgres Best Practices\n",
     "**Version " ++ m.version ++ "**",
     m.organization,
     m.date ++ "\n",
     "> This document is optimized for AI agents and LLMs. Rules are prioritized by performance impact.\n",
     "---\n",
     "## Abstract\n",
     m.abstract ++ "\n",
     "---\n",
     "## Table of Contents\n"]
    ++ (sections.map (tocSection rules)).flatten
    ++ ["---\n"]
    ++ (sections.map (bodySection rules)).flatten
    ++ (if m.references.length > 0 then
          ["## References\n"] ++ m.references.map (fun ref => "- " ++ ref) ++ [""]
        else []))

/-- build.ts `buildAgents`, as the text it writes: metadata and sections
are loaded, the directory is filtered, valid rules collected, grouped,
sorted, id-assigned and rendered. -/
def buildAgentsDoc (now : String) (metadataSrc : Option Metadata)
    (matcher : String → List Section) (sectionsSrc : Option String)
    (dir : List RuleFile) : String :=
  renderDoc (loadMetadata now metadataSrc) (parseSections matcher sectionsSrc)
    (includedRules dir)

/-! Helper lemmas about the embedded definitions. -/

theorem impactErrorMsg_take_one (s : String) : (impactErrorMsg s).data.take 1 = ['I'] := rfl

theorem impactErrorMsg_ne (s : String) {t : String} (h : t.data.take 1 ≠ ['I']) :
    impactErrorMsg s ≠ t :=
  fun e => h (by rw [← e, impactErrorMsg_take_one])

theorem msgLangWarn_take_three (l : String) :
    (msgLangWarn l).data.take 3 = ['E', 'x', 'a'] := rfl

theorem msgLangWarn_ne (l : String) {t : String} (h : t.data.take 3 ≠ ['E', 'x', 'a']) :
    msgLangWarn l ≠ t :=
  fun e => h (by rw [← e, msgLangWarn_take_three])

theorem lexLe_refl (l : List Char) : lexLe l l = true := by
  induction l with
  | nil => rfl
  | cons a as ih => simp [lexLe, ih]

theorem lexLe_total (a b : List Char) : lexLe a b = true ∨ lexLe b a = true := by
  induction a generalizing b with
  | nil => exact Or.inl rfl
  | cons x xs ih =>
    cases b with
    | nil => exact Or.inr rfl
    | cons y ys =>
      by_cases hxy : x = y
      · subst hxy
        simpa [lexLe] using ih ys
      · rcases lt_or_gt_of_ne hxy with h | h
        · exact Or.inl (by simp [lexLe, hxy, h])
        · exact Or.inr (by simp [lexLe, Ne.symm hxy, h])

theorem lexLe_trans {a b c : List Char} (h₁ : lexLe a b = true) (h₂ : lexLe b c = true) :
    lexLe a c = true := by
  induction a generalizing b c with
  | nil => rfl
  | cons x xs ih =>
    cases b with
    | nil => simp [lexLe] at h₁
    | cons y ys =>
      cases c with
      | nil => simp [lexLe] at h₂
      | cons z zs =>
        by_cases hxy : x = y
        · subst hxy
          by_cases hyz : x = z
          · subst hyz
            simp only [lexLe, if_pos rfl] at h₁ h₂ ⊢
            exact ih h₁ h₂
          · simpa [lexLe, hyz] using (by simpa [lexLe, hyz] using h₂ : x < z)
        · by_cases hyz : y = z
          · subst hyz
            simpa [lexLe, hxy] using (by simpa [lexLe, hxy] using h₁ : x < y)
          · have hlt₁ : x < y := by simpa [lexLe, hxy] using h₁
            have hlt₂ : y < z := by simpa [lexLe, hyz] using h₂
            have hxz : x < z := lt_trans hlt₁ hlt₂
            simp [lexLe, ne_of_lt hxz, hxz]

theorem titleLe_total (a b : Rule) : titleLe a b = true ∨ titleLe b a = true :=
  lexLe_total a.title.data b.title.data

theorem titleLe_trans {a b c : Rule} (h₁ : titleLe a b = true) (h₂ : titleLe b c = true) :
    titleLe a c = true :=
  lexLe_trans h₁ h₂

theorem insertLe_perm (le : Rule → Rule → Bool) (a : Rule) (l : List Rule) :
    (insertLe le a l).Perm (a :: l) := by
  induction l with
  | nil => exact List.Perm.refl _
  | cons b bs ih =>
    unfold insertLe
    split
    · exact List.Perm.refl _
    · exact (List.Perm.cons b ih).trans (List.Perm.swap a b bs)

theorem sortRules_perm (le : Rule → Rule → Bool) (l : List Rule) :
    (sortRules le l).Perm l := by
  induction l with
  | nil => exact List.Perm.refl _
  | cons a as ih =>
    exact (insertLe_perm le a (sortRules le as)).trans (List.Perm.cons a ih)

theorem insertLe_pairwise {le : Rule → Rule → Bool}
    (htrans : ∀ a b c, le a b = true → le b c = true → le a c = true)
    (htotal : ∀ a b, le a b = true ∨ le b a = true)
    (a : Rule) {l : List Rule} (hl : l.Pairwise (fun x y => le x y = true)) :
    (insertLe le a l).Pairwise (fun x y => le x y = true) := by
  induction l with
  | nil => simp [insertLe]
  | cons b bs ih =>
    rcases List.pairwise_cons.mp hl with ⟨hb, hbs⟩
    unfold insertLe
    split
    · rename_i hab
      refine List.pairwise_cons.mpr ⟨?_, hl⟩
      intro x hx
      rcases List.mem_cons.mp hx with rfl | hx
      · exact hab
      · exact htrans a b x hab (hb x hx)
    · rename_i hab
      have hba : le b a = true := (htotal a b).resolve_left hab
      refine List.pairwise_cons.mpr ⟨?_, ih hbs⟩
      intro x hx
      rcases List.mem_cons.mp ((insertLe_perm le a bs).mem_iff.mp hx) with rfl | h
      · exact hba
      · exact hb x h

theorem sortRules_pairwise {le : Rule → Rule → Bool}
    (htrans : ∀ a b c, le a b = true → le b c = true → le a c = true)
    (htotal : ∀ a b, le a b = true ∨ le b a = true)
    (l : List Rule) :
    (sortRules le l).Pairwise (fun x y => le x y = true) := by
  induction l with
  | nil => simp [sortRules]
  | cons a as ih => exact insertLe_pairwise htrans htotal a ih

theorem filter_insertLe_neg {le : Rule → Rule → Bool} {a : Rule} {P : Rule → Bool}
    (h : P a = false) (l : List Rule) :
    (insertLe le a l).filter P = l.filter P := by
  induction l with
  | nil => simp [insertLe, h]
  | cons b bs ih =>
    unfold insertLe
    split
    · simp [List.filter_cons, h]
    · simp [List.filter_cons, ih]

theorem filter_insertLe_pos {le : Rule → Rule → Bool} {a : Rule} {P : Rule → Bool}
    (ha : P a = true) {l : List Rule} (hall : ∀ b ∈ l, P b = true → le a b = true) :
    (insertLe le a l).filter P = a :: l.filter P := by
  induction l with
  | nil => simp [insertLe, ha]
  | cons b bs ih =>
    unfold insertLe
    split
    · simp [List.filter_cons, ha]
    · rename_i hle
      have hPb : P b = false := by
        cases hPb : P b
        · rfl
        · exact absurd (hall b (List.mem_cons_self b bs) hPb) hle
      have ih2 := ih fun x hx hPx => hall x (List.mem_cons_of_mem b hx) hPx
      simp [List.filter_cons, hPb, ih2]

theorem sortRules_stable_title (l : List Rule) (t : String) :
    (sortRules titleLe l).filter (fun r => r.title == t) =
      l.filter (fun r => r.title == t) := by
  induction l with
  | nil => rfl
  | cons a as ih =>
    unfold sortRules
    by_cases ha : a.title = t
    · rw [filter_insertLe_pos (by simp [ha])]
      · rw [ih, List.filter_cons, if_pos (by simp [ha])]
      · intro b _ hPb
        have hb : b.title = t := by simpa using hPb
        unfold titleLe
        rw [hb, ha]
        exact lexLe_refl _
    · rw [filter_insertLe_neg (by simp [ha]), ih, List.filter_cons, if_neg (by simp [ha])]

theorem numberFrom_map_snd (n : Nat) (l : List Rule) :
    ∀ k, (numberFrom n k l).map Prod.snd = l := by
  induction l with
  | nil => intro k; rfl
  | cons r rs ih => intro k; simp [numberFrom, ih]

theorem numberFrom_get (n : Nat) (l : List Rule) :
    ∀ k i (p : String × Rule), (numberFrom n k l)[i]? = some p →
      p.1 = toString n ++ "." ++ toString (k + i) := by
  induction l with
  | nil => intro k i p h; simp [numberFrom] at h
  | cons r rs ih =>
    intro k i p h
    cases i with
    | zero =>
      simp [numberFrom] at h
      rw [← h]
      rfl
    | succ i =>
      simp only [numberFrom, List.getElem?_cons_succ] at h
      have := ih (k + 1) i p h
      rw [this, Nat.add_assoc, Nat.add_comm 1 i]

theorem listRuleFiles_append (d₁ d₂ : List RuleFile) :
    listRuleFiles (d₁ ++ d₂) = listRuleFiles d₁ ++ listRuleFiles d₂ :=
  List.filter_append ..

theorem listRuleFiles_skip {f : RuleFile} (h : nameOk f.name = false) (d₁ d₂ : List RuleFile) :
    listRuleFiles (d₁ ++ f :: d₂) = listRuleFiles (d₁ ++ d₂) := by
  simp [listRuleFiles, List.filter_append, List.filter_cons, h]

theorem extractStep_skip {st : ExtractState} {f : RuleFile}
    (h : (validateParseResult f.parsed).valid = false) : extractStep st f = st := by
  simp [extractStep, h]

theorem includedRuleOfFile_none {f : RuleFile}
    (h : (validateParseResult f.parsed).valid = false) : includedRuleOfFile f = none := by
  simp [includedRuleOfFile, h]

theorem extractTestCases_skip_invalid {f : RuleFile}
    (h : (validateParseResult f.parsed).valid = false) (d₁ d₂ : List RuleFile) :
    extractTestCases (d₁ ++ f :: d₂) = extractTestCases (d₁ ++ d₂) := by
  unfold extractTestCases
  rw [listRuleFiles_append, listRuleFiles_append]
  unfold listRuleFiles
  rw [List.filter_cons]
  by_cases hn : nameOk f.name
  · simp only [hn, if_pos]
    rw [List.foldl_append, List.foldl_append, List.foldl_cons, extractStep_skip h]
  · simp [hn]

theorem includedRules_skip_invalid {f : RuleFile}
    (h : (validateParseResult f.parsed).valid = false) (d₁ d₂ : List RuleFile) :
    includedRules (d₁ ++ f :: d₂) = includedRules (d₁ ++ d₂) := by
  unfold includedRules
  rw [listRuleFiles_append, listRuleFiles_append]
  unfold listRuleFiles
  rw [List.filter_cons]
  by_cases hn : nameOk f.name
  · simp only [hn, if_pos]
    rw [List.filterMap_append, List.filterMap_append, List.filterMap_cons,
      includedRuleOfFile_none h]
  · simp [hn]

theorem mem_ite_singleton {x a : String} {c : Prop} [Decidable c]
    (hx : x ∈ (if c then [a] else [])) : x = a := by
  split at hx <;> simp_all

theorem mem_titleErrors {r : Rule} {x : String} (hx : x ∈ titleErrors r) : x = msgNoTitle := by
  unfold titleErrors at hx
  exact mem_ite_singleton hx

theorem mem_explanationErrors {r : Rule} {x : String} (hx : x ∈ explanationErrors r) :
    x = msgNoExplanation := by
  unfold explanationErrors at hx
  exact mem_ite_singleton hx

theorem mem_hasCodeErrors {r : Rule} {x : String} (hx : x ∈ hasCodeErrors r) : x = msgNoCode := by
  unfold hasCodeErrors at hx
  split at hx <;> simp_all

theorem mem_impactErrors {r : Rule} {x : String} (hx : x ∈ impactErrors r) :
    x = impactErrorMsg r.impact := by
  unfold impactErrors at hx
  split at hx <;> simp_all

theorem mem_exampleClassErrors {r : Rule} {x : String} (hx : x ∈ exampleClassErrors r) :
    x = msgMissingBoth ∨ x = msgMissingGood := by
  unfold exampleClassErrors at hx
  split at hx
  · simp at hx
    exact Or.inl hx
  · split at hx
    · simp at hx
    · split at hx
      · simp at hx
        exact Or.inr hx
      · simp at hx

theorem mem_exampleErrors {r : Rule} {x : String} (hx : x ∈ exampleErrors r) :
    x = msgMissingExamples ∨ x ∈ exampleClassErrors r ∨ x ∈ hasCodeErrors r := by
  unfold exampleErrors at hx
  split at hx
  · simp at hx
    exact Or.inl hx
  · exact Or.inr (List.mem_append.mp hx)

theorem mem_ruleErrors {r : Rule} {x : String} (hx : x ∈ ruleErrors r) :
    x = msgNoTitle ∨ x = msgNoExplanation ∨ x ∈ exampleErrors r ∨
      x = impactErrorMsg r.impact := by
  unfold ruleErrors at hx
  rcases List.mem_append.mp hx with hx | hx
  · rcases List.mem_append.mp hx with hx | hx
    · rcases List.mem_append.mp hx with hx | hx
      · exact Or.inl (mem_titleErrors hx)
      · exact Or.inr (Or.inl (mem_explanationErrors hx))
    · exact Or.inr (Or.inr (Or.inl hx))
  · exact Or.inr (Or.inr (Or.inr (mem_impactErrors hx)))

theorem mem_explanationWarnings {r : Rule} {x : String} (hx : x ∈ explanationWarnings r) :
    x = msgShortExplanation := by
  unfold explanationWarnings at hx
  split at hx
  · simp at hx
  · exact mem_ite_singleton hx

theorem mem_exampleClassWarnings {r : Rule} {x : String} (hx : x ∈ exampleClassWarnings r) :
    x = msgMissingBadWarn := by
  unfold exampleClassWarnings at hx
  split at hx
  · simp at hx
  · split at hx <;> simp_all

theorem mem_langWarnings {r : Rule} {x : String} (hx : x ∈ langWarnings r) :
    ∃ e ∈ r.examples, x = msgLangWarn e.label := by
  unfold langWarnings at hx
  rcases List.mem_filterMap.mp hx with ⟨e, he, hsome⟩
  split at hsome
  · exact ⟨e, he, (Option.some_inj.mp hsome).symm⟩
  · exact absurd hsome (by simp)

theorem mem_exampleWarnings {r : Rule} {x : String} (hx : x ∈ exampleWarnings r) :
    x = msgMissingBadWarn ∨ ∃ e ∈ r.examples, x = msgLangWarn e.label := by
  unfold exampleWarnings at hx
  split at hx
  · simp at hx
  · rcases List.mem_append.mp hx with hx | hx
    · exact Or.inl (mem_exampleClassWarnings hx)
    · exact Or.inr (mem_langWarnings hx)

theorem mem_impactDescWarnings {r : Rule} {x : String} (hx : x ∈ impactDescWarnings r) :
    x = msgNoImpactDescription := by
  unfold impactDescWarnings at hx
  split at hx
  · simp at hx
  · simp_all

theorem mem_ruleWarnings {r : Rule} {x : String} (hx : x ∈ ruleWarnings r) :
    x = msgShortExplanation ∨ x ∈ exampleWarnings r ∨ x = msgNoImpactDescription := by
  unfold ruleWarnings at hx
  rcases List.mem_append.mp hx with hx | hx
  · rcases List.mem_append.mp hx with hx | hx
    · exact Or.inl (mem_explanationWarnings hx)
    · exact Or.inr (Or.inl hx)
  · exact Or.inr (Or.inr (mem_impactDescWarnings hx))

/-! Concrete fixtures used by counterexamples and witnesses. -/

/-- A bad example with code, as in a well-formed rule file. -/
def exampleBad : Example :=
  { label := "Incorrect", description := none, code := "SELECT 1;",
    language := some "sql", additionalText := none }

/-- A good example with code, as in a well-formed rule file. -/
def exampleGood : Example :=
  { label := "Correct", description := none, code := "SELECT 2;",
    language := some "sql", additionalText := none }

/-- A fully valid rule with the given title and section number. -/
def mkRule (t : String) (n : Nat) : Rule :=
  { title := t, impact := "HIGH", impactDescription := some "2x faster",
    explanation := "An explanation that is certainly long enough to avoid any warnings.",
    sectionNum := n, examples := [exampleBad, exampleGood],
    supabaseNotes := none, references := [] }

/-- A successful parse of the given rule. -/
def parseOf (r : Rule) : ParseResult :=
  { success := true, rule := some r, errors := [], warnings := [] }

/-- Valid rule titled late in the alphabet, section 1. -/
def ruleZebra : Rule := mkRule "Zebra Index" 1

/-- Valid rule titled early in the alphabet, section 1. -/
def ruleAvoid : Rule := mkRule "Avoid Bloat" 1

/-- Valid section-3 rule titled late in the alphabet. -/
def ruleZebra3 : Rule := mkRule "Zebra Index" 3

/-- Valid section-3 rule titled early in the alphabet. -/
def ruleAvoid3 : Rule := mkRule "Avoid Bloat" 3

/-- Directory entry whose file name sorts before `fileAvoid` but whose rule
title sorts after it. -/
def fileZebra : RuleFile := { name := "query-a.md", parsed := parseOf ruleZebra }

/-- Directory entry whose file name sorts after `fileZebra` but whose rule
title sorts before it. -/
def fileAvoid : RuleFile := { name := "query-b.md", parsed := parseOf ruleAvoid }

/-- Valid rule with only a good example. -/
def ruleGoodOnly : Rule :=
  { mkRule "Avoid Select Star" 1 with examples := [exampleGood] }

/-- Rule with no examples at all. -/
def ruleNoExamples : Rule :=
  { mkRule "No Examples Rule" 1 with examples := [] }

/-- Rule whose impact value is outside the fixed enumeration. -/
def ruleSevere : Rule :=
  { mkRule "Severe Impact Rule" 1 with impact := "SEVERE" }

/-- Directory entry carrying `ruleSevere`. -/
def fileSevere : RuleFile := { name := "query-s.md", parsed := parseOf ruleSevere }

/-- Directory entry with a non-`.md` extension. -/
def fileNotes : RuleFile := { name := "notes.txt", parsed := parseOf ruleZebra }

/-- A single-element section table, for exercising the partial-match case. -/
def soloSection : Section :=
  { number := 1, title := "Query Performance", key := "query", impact := "CRITICAL",
    description := "Slow queries" }

/-- A section matcher producing exactly one match on any content. -/
def soloMatcher : String → List Section := fun _ => [soloSection]

/-! Claim theorems. -/

/-- C1: the claim that every `ruleId` in the extracted test-case list equals
the id the builder assigns to the same rule fails: on a directory whose
listing order differs from title order within a section, the extractor
(which numbers rules in directory order, extract-tests.ts lines 59-61)
gives "Zebra Index" ruleId 1.1, while the builder (which sorts each
section by title before numbering, build.ts lines 127-132) renders
"Zebra Index" as rule 1.2. -/
theorem extract_build_id_mismatch :
    (extractTestCases [fileZebra, fileAvoid]).map (fun t => (t.ruleTitle, t.ruleId)) =
      [("Zebra Index", "1.1"), ("Zebra Index", "1.1"),
       ("Avoid Bloat", "1.2"), ("Avoid Bloat", "1.2")]
    ∧ (assignIds (includedRules [fileZebra, fileAvoid]) 1).map (fun p => (p.2.title, p.1)) =
      [("Avoid Bloat", "1.1"), ("Zebra Index", "1.2")]
    ∧ ¬ (∀ tc ∈ extractTestCases [fileZebra, fileAvoid],
          ∀ p ∈ assignIds (includedRules [fileZebra, fileAvoid]) 1,
            tc.ruleTitle = p.2.title → tc.ruleId = p.1) :=
  ⟨by decide, by decide, by decide⟩

/-- C2: within a section the builder sorts the rules by title (stably) and
assigns ids `"<sectionNumber>.<position+1>"` in sorted order: the assigned
list is a permutation of the section's rules, is sorted by the title
comparator, carries the positional id at every index, preserves the
original relative order of equal titles, and on two section-3 rules titled
"Zebra Index" and "Avoid Bloat" yields 3.1 for "Avoid Bloat" and 3.2 for
"Zebra Index" in either input order. -/
theorem aggregator_id_assignment (rules : List Rule) (n : Nat) :
    ((assignIds rules n).map Prod.snd).Perm (rulesInSection rules n)
    ∧ ((assignIds rules n).map Prod.snd).Pairwise (fun a b => titleLe a b = true)
    ∧ (∀ i p, (assignIds rules n)[i]? = some p →
        p.1 = toString n ++ "." ++ toString (i + 1))
    ∧ (∀ t, (sortRules titleLe (rulesInSection rules n)).filter (fun r => r.title == t) =
        (rulesInSection rules n).filter (fun r => r.title == t))
    ∧ (assignIds [ruleZebra3, ruleAvoid3] 3).map (fun p => (p.1, p.2.title)) =
        [("3.1", "Avoid Bloat"), ("3.2", "Zebra Index")]
    ∧ (assignIds [ruleAvoid3, ruleZebra3] 3).map (fun p => (p.1, p.2.title)) =
        [("3.1", "Avoid Bloat"), ("3.2", "Zebra Index")] := by
  refine ⟨?_, ?_, ?_, ?_, by decide, by decide⟩
  · unfold assignIds
    rw [numberFrom_map_snd]
    exact sortRules_perm _ _
  · unfold assignIds
    rw [numberFrom_map_snd]
    exact @sortRules_pairwise titleLe (fun a b c h₁ h₂ => titleLe_trans h₁ h₂) titleLe_total _
  · intro i p h
    rw [numberFrom_get n _ 1 i p h, Nat.add_comm]
  · exact sortRules_stable_title _

/-- C2 witness: the first assigned entry of the concrete section-3 build is
"3.1" paired with the "Avoid Bloat" rule, and the positional-id law applied
there gives exactly that id string. -/
theorem aggregator_id_assignment_witness :
    (assignIds [ruleZebra3, ruleAvoid3] 3)[0]? = some ("3.1", ruleAvoid3)
    ∧ ("3.1", ruleAvoid3).1 = toString 3 ++ "." ++ toString (0 + 1) :=
  ⟨by decide,
   (aggregator_id_assignment [ruleZebra3, ruleAvoid3] 3).2.2.1 0 ("3.1", ruleAvoid3) (by decide)⟩

/-- C3: with the metadata source supplied, the rendered document is a pure
function of the rule files, the section source and the metadata — the
current-date parameter (the only timestamp in the pipeline, used solely by
the metadata fallback of build.ts line 62) does not influence the output,
so two runs on identical inputs produce byte-identical text. -/
theorem buildAgentsDoc_deterministic (t₁ t₂ : String) (m : Metadata)
    (matcher : String → List Section) (ssrc : Option String) (dir : List RuleFile) :
    buildAgentsDoc t₁ (some m) matcher ssrc dir = buildAgentsDoc t₂ (some m) matcher ssrc dir :=
  rfl

/-- C7: a label matching both a bad keyword and a good keyword classifies
as bad in the extractor (the bad check runs first, extract-tests.ts lines
69-75), and such an example also counts on the bad side of the validator's
`hasBad` check. -/
theorem bad_keyword_wins (label : String) (hb : isBadExample label = true)
    (_hg : isGoodExample label = true) :
    classifyLabel label = some ExampleType.bad
    ∧ ∀ (r : Rule) (e : Example), e ∈ r.examples → e.label = label → hasBad r = true := by
  refine ⟨by simp [classifyLabel, hb], ?_⟩
  intro r e he hl
  unfold hasBad
  rw [List.any_eq_true]
  exact ⟨e, he, by rw [hl]; exact hb⟩

/-- C7 witness: "Incorrect Example" matches both keyword sets and
classifies as bad. -/
theorem bad_keyword_wins_witness :
    isBadExample "Incorrect Example" = true ∧ isGoodExample "Incorrect Example" = true
    ∧ classifyLabel "Incorrect Example" = some ExampleType.bad :=
  ⟨by decide, by decide,
   (bad_keyword_wins "Incorrect Example" (by decide) (by decide)).1⟩

/-- C10: if the section source is present and the matcher finds at least
one section, `parseSections` returns exactly the matched sections (even
when fewer than eight); the default table is substituted only for an
absent source or zero matches. -/
theorem parseSections_no_completion (matcher : String → List Section) (content : String) :
    (matcher content ≠ [] → parseSections matcher (some content) = matcher content)
    ∧ parseSections matcher none = getDefaultSections
    ∧ (matcher content = [] → parseSections matcher (some content) = getDefaultSections) := by
  refine ⟨?_, rfl, ?_⟩
  · intro h
    show (if (matcher content).length > 0 then matcher content else getDefaultSections) =
      matcher content
    rw [if_pos (List.length_pos.mpr h)]
  · intro h
    show (if (matcher content).length > 0 then matcher content else getDefaultSections) =
      getDefaultSections
    rw [h]
    simp

/-- C10 witness: a matcher yielding one section on content "x" makes
`parseSections` return exactly that single-section table. -/
theorem parseSections_no_completion_witness :
    soloMatcher "x" ≠ [] ∧ parseSections soloMatcher (some "x") = soloMatcher "x" :=
  ⟨by decide, (parseSections_no_completion soloMatcher "x").1 (by decide)⟩

/-- C4: on a rule with at least one example, the bad/good presence policy
of validate.ts lines 64-74 holds: no bad and no good example is an error;
a good example without any bad one yields only the missing-bad warning and
neither classification error; a bad example without any good one yields
the missing-good error. -/
theorem example_presence_policy (r : Rule) (hne : r.examples ≠ []) :
    ((hasBad r = false ∧ hasGood r = false) → msgMissingBoth ∈ ruleErrors r)
    ∧ ((hasBad r = false ∧ hasGood r = true) →
        msgMissingBadWarn ∈ ruleWarnings r ∧ msgMissingBoth ∉ ruleErrors r ∧
          msgMissingGood ∉ ruleErrors r)
    ∧ ((hasBad r = true ∧ hasGood r = false) → msgMissingGood ∈ ruleErrors r) := by
  have hE : r.examples.isEmpty = false := by
    cases hx : r.examples with
    | nil => exact absurd hx hne
    | cons a l => rfl
  refine ⟨?_, ?_, ?_⟩
  · rintro ⟨hb, hg⟩
    have hmem : msgMissingBoth ∈ exampleErrors r := by
      simp [exampleErrors, hE, exampleClassErrors, hb, hg]
    simp only [ruleErrors, List.mem_append]
    tauto
  · rintro ⟨hb, hg⟩
    have hclass : exampleClassErrors r = [] := by
      simp [exampleClassErrors, hb, hg]
    refine ⟨?_, ?_, ?_⟩
    · have hmem : msgMissingBadWarn ∈ exampleWarnings r := by
        simp [exampleWarnings, hE, exampleClassWarnings, hb, hg]
      simp only [ruleWarnings, List.mem_append]
      tauto
    · intro hx
      rcases mem_ruleErrors hx with h | h | h | h
      · exact absurd h (by decide)
      · exact absurd h (by decide)
      · rcases mem_exampleErrors h with h | h | h
        · exact absurd h (by decide)
        · rw [hclass] at h
          exact absurd h (by simp)
        · exact absurd (mem_hasCodeErrors h) (by decide)
      · exact (impactErrorMsg_ne r.impact (by decide)) h.symm
    · intro hx
      rcases mem_ruleErrors hx with h | h | h | h
      · exact absurd h (by decide)
      · exact absurd h (by decide)
      · rcases mem_exampleErrors h with h | h | h
        · exact absurd h (by decide)
        · rw [hclass] at h
          exact absurd h (by simp)
        · exact absurd (mem_hasCodeErrors h) (by decide)
      · exact (impactErrorMsg_ne r.impact (by decide)) h.symm
  · rintro ⟨hb, hg⟩
    have hmem : msgMissingGood ∈ exampleErrors r := by
      simp [exampleErrors, hE, exampleClassErrors, hb, hg]
    simp only [ruleErrors, List.mem_append]
    tauto

/-- C4 witness: the good-example-only rule gets the missing-bad warning. -/
theorem example_presence_policy_witness :
    ruleGoodOnly.examples ≠ [] ∧ hasBad ruleGoodOnly = false ∧ hasGood ruleGoodOnly = true
    ∧ msgMissingBadWarn ∈ ruleWarnings ruleGoodOnly :=
  ⟨by decide, by decide, by decide,
   ((example_presence_policy ruleGoodOnly (by decide)).2.1 ⟨by decide, by decide⟩).1⟩

/-- C8: a rule with no examples gets exactly the missing-examples error
among example-related diagnostics and no example-related warnings: the
classification errors, the no-code error, the missing-bad warning and the
missing-language warnings are all absent (validate.ts lines 61-88 runs
those checks only in the non-empty branch). -/
theorem empty_examples_policy (r : Rule) (h : r.examples = []) :
    msgMissingExamples ∈ ruleErrors r
    ∧ List.count msgMissingExamples (ruleErrors r) = 1
    ∧ msgMissingBoth ∉ ruleErrors r
    ∧ msgMissingGood ∉ ruleErrors r
    ∧ msgNoCode ∉ ruleErrors r
    ∧ msgMissingBadWarn ∉ ruleWarnings r
    ∧ ∀ l, msgLangWarn l ∉ ruleWarnings r := by
  have hE : r.examples.isEmpty = true := by rw [h]; rfl
  have hEx : exampleErrors r = [msgMissingExamples] := by simp [exampleErrors, hE]
  have hW : exampleWarnings r = [] := by simp [exampleWarnings, hE]
  refine ⟨?_, ?_, ?_, ?_, ?_, ?_, ?_⟩
  · simp only [ruleErrors, List.mem_append, hEx]
    simp
  · have h1 : List.count msgMissingExamples (titleErrors r) = 0 :=
      List.count_eq_zero.mpr fun hx => absurd (mem_titleErrors hx) (by decide)
    have h2 : List.count msgMissingExamples (explanationErrors r) = 0 :=
      List.count_eq_zero.mpr fun hx => absurd (mem_explanationErrors hx) (by decide)
    have h4 : List.count msgMissingExamples (impactErrors r) = 0 :=
      List.count_eq_zero.mpr fun hx =>
        (impactErrorMsg_ne r.impact (by decide)) (mem_impactErrors hx).symm
    simp [ruleErrors, List.count_append, h1, h2, h4, hEx]
  · intro hx
    rcases mem_ruleErrors hx with hc | hc | hc | hc
    · exact absurd hc (by decide)
    · exact absurd hc (by decide)
    · rw [hEx] at hc
      simp at hc
      exact absurd hc (by decide)
    · exact (impactErrorMsg_ne r.impact (by decide)) hc.symm
  · intro hx
    rcases mem_ruleErrors hx with hc | hc | hc | hc
    · exact absurd hc (by decide)
    · exact absurd hc (by decide)
    · rw [hEx] at hc
      simp at hc
      exact absurd hc (by decide)
    · exact (impactErrorMsg_ne r.impact (by decide)) hc.symm
  · intro hx
    rcases mem_ruleErrors hx with hc | hc | hc | hc
    · exact absurd hc (by decide)
    · exact absurd hc (by decide)
    · rw [hEx] at hc
      simp at hc
      exact absurd hc (by decide)
    · exact (impactErrorMsg_ne r.impact (by decide)) hc.symm
  · intro hx
    rcases mem_ruleWarnings hx with hc | hc | hc
    · exact absurd hc (by decide)
    · rw [hW] at hc
      exact absurd hc (by simp)
    · exact absurd hc (by decide)
  · intro l hx
    rcases mem_ruleWarnings hx with hc | hc | hc
    · exact (msgLangWarn_ne l (by decide)) hc
    · rw [hW] at hc
      exact absurd hc (by simp)
    · exact (msgLangWarn_ne l (by decide)) hc

/-- C8 witness: the concrete example-free rule reports the missing-examples
error exactly once and none of the other example diagnostics. -/
theorem empty_examples_policy_witness :
    ruleNoExamples.examples = []
    ∧ msgMissingExamples ∈ ruleErrors ruleNoExamples
    ∧ List.count msgMissingExamples (ruleErrors ruleNoExamples) = 1 :=
  ⟨by decide, (empty_examples_policy ruleNoExamples (by decide)).1,
   (empty_examples_policy ruleNoExamples (by decide)).2.1⟩

/-- C5: a parsed rule whose impact is outside the six-level enumeration
yields exactly one occurrence of the error naming the value and listing
the levels (validate.ts lines 91-93), the result is invalid, and the file
contributes nothing to the rendered document or the test-case list. -/
theorem invalid_impact_policy (pr : ParseResult) (r : Rule) (name : String)
    (d₁ d₂ : List RuleFile) (now : String) (msrc : Option Metadata)
    (matcher : String → List Section) (ssrc : Option String)
    (hs : pr.success = true) (hr : pr.rule = some r)
    (hi : IMPACT_LEVELS.contains r.impact = false)
    (hp : impactErrorMsg r.impact ∉ pr.errors) :
    List.count (impactErrorMsg r.impact) (validateParseResult pr).errors = 1
    ∧ (validateParseResult pr).valid = false
    ∧ includedRules (d₁ ++ (⟨name, pr⟩ : RuleFile) :: d₂) = includedRules (d₁ ++ d₂)
    ∧ extractTestCases (d₁ ++ (⟨name, pr⟩ : RuleFile) :: d₂) = extractTestCases (d₁ ++ d₂)
    ∧ buildAgentsDoc now msrc matcher ssrc (d₁ ++ (⟨name, pr⟩ : RuleFile) :: d₂) =
        buildAgentsDoc now msrc matcher ssrc (d₁ ++ d₂) := by
  have herr : (validateParseResult pr).errors = pr.errors ++ ruleErrors r := by
    simp [validateParseResult, hs, hr]
  have himp : impactErrors r = [impactErrorMsg r.impact] := by
    unfold impactErrors
    rw [hi]
    simp
  have hcount : List.count (impactErrorMsg r.impact) (ruleErrors r) = 1 := by
    have h1 : List.count (impactErrorMsg r.impact) (titleErrors r) = 0 :=
      List.count_eq_zero.mpr fun hx =>
        (impactErrorMsg_ne r.impact (by decide)) (mem_titleErrors hx)
    have h2 : List.count (impactErrorMsg r.impact) (explanationErrors r) = 0 :=
      List.count_eq_zero.mpr fun hx =>
        (impactErrorMsg_ne r.impact (by decide)) (mem_explanationErrors hx)
    have h3 : List.count (impactErrorMsg r.impact) (exampleErrors r) = 0 :=
      List.count_eq_zero.mpr fun hx => by
        rcases mem_exampleErrors hx with hc | hc | hc
        · exact (impactErrorMsg_ne r.impact (by decide)) hc
        · rcases mem_exampleClassErrors hc with hc | hc
          · exact (impactErrorMsg_ne r.impact (by decide)) hc
          · exact (impactErrorMsg_ne r.impact (by decide)) hc
        · exact (impactErrorMsg_ne r.impact (by decide)) (mem_hasCodeErrors hc)
    simp [ruleErrors, List.count_append, h1, h2, h3, himp]
  have hmem : impactErrorMsg r.impact ∈ ruleErrors r := by
    simp only [ruleErrors, List.mem_append, himp]
    simp
  have hvalid : (validateParseResult pr).valid = false := by
    have hne : pr.errors ++ ruleErrors r ≠ [] :=
      List.ne_nil_of_mem (List.mem_append.mpr (Or.inr hmem))
    simp [validateParseResult, hs, hr, hne]
  refine ⟨?_, hvalid, ?_, ?_, ?_⟩
  · rw [herr, List.count_append, List.count_eq_zero.mpr hp, hcount]
  · exact includedRules_skip_invalid hvalid d₁ d₂
  · exact extractTestCases_skip_invalid hvalid d₁ d₂
  · unfold buildAgentsDoc
    rw [includedRules_skip_invalid hvalid d₁ d₂]

/-- C5 witness: the concrete rule with impact "SEVERE" is excluded and its
error occurs exactly once. -/
theorem invalid_impact_policy_witness :
    List.count (impactErrorMsg "SEVERE") (validateParseResult (parseOf ruleSevere)).errors = 1
    ∧ (validateParseResult (parseOf ruleSevere)).valid = false
    ∧ extractTestCases ([] ++ fileSevere :: []) = extractTestCases ([] ++ []) :=
  ⟨(invalid_impact_policy (parseOf ruleSevere) ruleSevere "query-s.md" [] [] "d" none
      soloMatcher none rfl rfl (by decide) (by decide)).1,
   (invalid_impact_policy (parseOf ruleSevere) ruleSevere "query-s.md" [] [] "d" none
      soloMatcher none rfl rfl (by decide) (by decide)).2.1,
   (invalid_impact_policy (parseOf ruleSevere) ruleSevere "query-s.md" [] [] "d" none
      soloMatcher none rfl rfl (by decide) (by decide)).2.2.2.1⟩

/-- Modelled from the spec: parser.ts is not under src/; by §4.1 of the
spec it "never throws; all failure is returned as structured errors", so
an unsuccessful parse always carries at least one error. -/
def specParserWellFormed (pr : ParseResult) : Prop :=
  (pr.success = false ∨ pr.rule = none) → pr.errors ≠ []

/-- C6: the validation result is valid exactly when its collected error
list is empty (warnings never affect validity, validate.ts lines 100-104),
and a file whose validation has no errors is included in the build
regardless of its warnings. -/
theorem valid_iff_no_errors (pr : ParseResult) (name : String)
    (d₁ d₂ : List RuleFile) (hwf : specParserWellFormed pr) :
    ((validateParseResult pr).valid = true ↔ (validateParseResult pr).errors = [])
    ∧ (∀ r : Rule, pr.rule = some r → pr.success = true →
        (validateParseResult pr).errors = [] → nameOk name = true →
        r ∈ includedRules (d₁ ++ (⟨name, pr⟩ : RuleFile) :: d₂)) := by
  obtain ⟨qs, qr, qe, qw⟩ := pr
  constructor
  · cases qs
    · have hne : qe ≠ [] := hwf (Or.inl rfl)
      simp [validateParseResult, hne]
    · cases qr with
      | none =>
        have hne : qe ≠ [] := hwf (Or.inr rfl)
        simp [validateParseResult, hne]
      | some r =>
        simp [validateParseResult]
  · intro r hr hs he hn
    cases qs
    · exact absurd hs (by simp)
    · cases qr with
      | none => exact absurd hr (by simp)
      | some r2 =>
        have hr2 : r2 = r := by
          simpa using hr
        subst hr2
        have hv : (validateParseResult ⟨true, some r2, qe, qw⟩).valid = true := by
          simp only [validateParseResult] at he ⊢
          rw [he]
          rfl
        unfold includedRules listRuleFiles
        refine List.mem_filterMap.mpr
          ⟨⟨name, ⟨true, some r2, qe, qw⟩⟩, List.mem_filter.mpr ⟨by simp, hn⟩, ?_⟩
        simp [includedRuleOfFile, hv]

/-- C6 witness: the concrete valid file is included in the build, and its
validity coincides with its empty error list. -/
theorem valid_iff_no_errors_witness :
    ((validateParseResult (parseOf ruleZebra)).valid = true ↔
      (validateParseResult (parseOf ruleZebra)).errors = [])
    ∧ ruleZebra ∈ includedRules ([] ++ (⟨"query-a.md", parseOf ruleZebra⟩ : RuleFile) :: []) :=
  ⟨(valid_iff_no_errors (parseOf ruleZebra) "query-a.md" [] []
      (fun h => absurd h (by decide))).1,
   (valid_iff_no_errors (parseOf ruleZebra) "query-a.md" [] []
      (fun h => absurd h (by decide))).2 ruleZebra rfl rfl (by decide) (by decide)⟩

/-- C9: a directory entry is processed exactly when its name ends in ".md"
and does not start with "_"; a name failing the filter is silently ignored
by all three entry points — the validation result list, the test-case list
and the rendered document are unchanged by its presence. -/
theorem md_underscore_filter (f : RuleFile) (d₁ d₂ : List RuleFile) (now : String)
    (msrc : Option Metadata) (matcher : String → List Section) (ssrc : Option String) :
    (f ∈ listRuleFiles (d₁ ++ f :: d₂) ↔
      (jsEndsWith f.name ".md" = true ∧ jsStartsWith f.name "_" = false))
    ∧ (nameOk f.name = false →
        validateAllFiles (d₁ ++ f :: d₂) = validateAllFiles (d₁ ++ d₂)
        ∧ extractTestCases (d₁ ++ f :: d₂) = extractTestCases (d₁ ++ d₂)
        ∧ buildAgentsDoc now msrc matcher ssrc (d₁ ++ f :: d₂) =
            buildAgentsDoc now msrc matcher ssrc (d₁ ++ d₂)) := by
  constructor
  · constructor
    · intro hm
      have hok : nameOk f.name = true := (List.mem_filter.mp hm).2
      constructor
      · cases he : jsEndsWith f.name ".md"
        · exfalso
          unfold nameOk at hok
          rw [he] at hok
          simp at hok
        · rfl
      · cases hsw : jsStartsWith f.name "_"
        · rfl
        · exfalso
          unfold nameOk at hok
          rw [hsw] at hok
          simp at hok
    · rintro ⟨h1, h2⟩
      unfold listRuleFiles
      refine List.mem_filter.mpr ⟨by simp, ?_⟩
      unfold nameOk
      rw [h1, h2]
      rfl
  · intro h
    refine ⟨?_, ?_, ?_⟩
    · unfold validateAllFiles
      rw [listRuleFiles_skip h]
    · unfold extractTestCases
      rw [listRuleFiles_skip h]
    · unfold buildAgentsDoc
      rw [show includedRules (d₁ ++ f :: d₂) = includedRules (d₁ ++ d₂) by
        unfold includedRules
        rw [listRuleFiles_skip h]]

/-- C9 witness: the ".txt" entry is ignored by validate-all without any
reported diagnostic. -/
theorem md_underscore_filter_witness :
    nameOk fileNotes.name = false
    ∧ validateAllFiles ([] ++ fileNotes :: []) = validateAllFiles ([] ++ []) :=
  ⟨by decide,
   ((md_underscore_filter fileNotes [] [] "d" none soloMatcher none).2 (by decide)).1⟩

end PBP
